import Mathlib

/-
  Verification of the sentry_exporter probe engine.

  Shallow embedding of the Go sources:
  - src/sentry.go           : requestSentry, getSentryNextCursor, project cache
  - src/prober_lag.go       : extractErrorRate, probeProjectLag, probeHTTPLag
  - src/unnamed/part_003    : issues walker (getIssuesListByFreq,
                              requestIssueCountAboveThreshold, clientWithTimeout,
                              probeHTTPIssues)

  Go machine integers are modelled as Int (no arithmetic here approaches 2^63),
  Go maps as association lists or explicit lookup functions, and the network as
  explicit outcome data passed to each function.  A Go runtime panic (nil
  pointer dereference) is modelled by an `Option` result being `none`.
-/

namespace SentryExporter


/-! ## API client: requestSentry (src/sentry.go lines 36-70)

`client.Do` returns a `(*http.Response, error)` pair.  The three shapes that
can reach the validation code are: no error (response present), error with a
response attached (the disabled-redirect case mentioned in the source
comment), and error with a nil response (ordinary transport failure). -/

structure GoHttpResponse where
  statusCode : Int
deriving DecidableEq

inductive DoResult where
  /-- err == nil; resp is non-nil. -/
  | ok (resp : GoHttpResponse)
  /-- err != nil but a response object accompanies it (redirect refused). -/
  | errWithResp (resp : GoHttpResponse)
  /-- err != nil and resp is nil (connection failure, timeout, ...). -/
  | errNoResp
deriving DecidableEq

/-- Result of `requestSentry`: `none` models the Go runtime panic that a nil
pointer dereference raises; `some (.ok r)` the `return resp, nil` paths;
`some (.error code)` the final `return &http.Response{}, errors.New(
fmt.Sprintf("Invalid response from Sentry API: %d", resp.StatusCode))` path,
carrying the status code that was read from `resp`. -/
def requestSentry (validStatusCodes : List Int) (r : DoResult) :
    Option (Except Int GoHttpResponse) :=
  match r with
  | .ok resp =>
      if validStatusCodes ≠ [] then
        if resp.statusCode ∈ validStatusCodes then some (.ok resp)
        else some (.error resp.statusCode)
      else if 200 ≤ resp.statusCode ∧ resp.statusCode < 300 then some (.ok resp)
      else some (.error resp.statusCode)
  | .errWithResp resp => some (.error resp.statusCode)
  | .errNoResp => none

/-! ## clientWithTimeout (src/unnamed/part_003 lines 175-187)

```go
func clientWithTimeout(values url.Values, timeout time.Duration) *http.Client {
    c := &http.Client{Timeout: timeout}
    if timeout := values.Get("timeout"); timeout != "" {
        if d, err := model.ParseDuration(timeout); err != nil {
            c.Timeout = time.Duration(d)
        }
    }
    return c
}
```

`model.ParseDuration` is an external library function; it is passed in here as
`parseDuration` (returning `none` exactly when the Go call returns a non-nil
error, in which case the Go `d` value is the zero duration).  Durations are
modelled as Nat (nanoseconds).  `values.Get` returns `""` for an absent
parameter, as in Go. -/
def clientWithTimeout (parseDuration : String → Option Nat)
    (timeoutParam : String) (timeout : Nat) : Nat :=
  if timeoutParam ≠ "" then
    match parseDuration timeoutParam with
    | none => 0
    | some _ => timeout
  else timeout

/-- A concrete instance of the external duration grammar, enough to evaluate
`clientWithTimeout` on the inputs of interest: "30s" is a valid duration
string (30 time units); "zzz" is not. -/
def parseDurDemo : String → Option Nat :=
  fun s => if s = "30s" then some 30 else none

/-! ## Project cache (src/sentry.go lines 106-118)

```go
var allProjectsCache []string
var timesSinceUpdate = 0

func getOrUpdateProjectsList(config HTTPProbe, client *http.Client, ...) []string {
    if len(allProjectsCache) == 0 || timesSinceUpdate > 50 {
        allProjectsCache = allSentryProjects(config, client, failures, w)
        timesSinceUpdate = 0
    } else {
        timesSinceUpdate++
    }
    return allProjectsCache
}
```

`fetched` stands for the project list that `allSentryProjects` returns on each
refresh (the scrapes are consecutive, so the upstream list is held fixed). -/

structure CacheState where
  cache : List String
  t : Nat
deriving DecidableEq

/-- One `getOrUpdateProjectsList` call: returns the served targets, the new
cache state, and 1 when the underlying list-projects call was issued. -/
def getOrUpdateProjectsList (fetched : List String) (s : CacheState) :
    List String × CacheState × Nat :=
  if s.cache.length = 0 ∨ s.t > 50 then (fetched, ⟨fetched, 0⟩, 1)
  else (s.cache, ⟨s.cache, s.t + 1⟩, 0)

/-- `n` consecutive all-projects scrapes from the start state (empty cache,
counter 0): final cache state and total number of list-projects calls. -/
def runScrapes (fetched : List String) : Nat → CacheState × Nat
  | 0 => (⟨[], 0⟩, 0)
  | n + 1 =>
      let p := runScrapes fetched n
      let q := getOrUpdateProjectsList fetched p.1
      (q.2.1, p.2 + q.2.2)

/-! ## extractErrorRate (src/prober_lag.go lines 57-79)

```go
for i := len(stats) - 1; i >= 0; i-- {
    ts := stats[i][0]
    c := stats[i][1]
    count = count + c
    if latestTimestamp == 0 && c > 0 {
        latestTimestamp = ts
    }
}
return count, latestTimestamp, nil
```

The decoded JSON is a series of (timestamp, count) buckets ordered
oldest → newest; the loop visits them newest first, so the embedding folds
over the reversed list. -/

def erLoop : List (Int × Int) → Int → Int → Int × Int
  | [], count, latest => (count, latest)
  | (ts, c) :: rest, count, latest =>
      erLoop rest (count + c) (if latest = 0 ∧ 0 < c then ts else latest)

def extractErrorRate (stats : List (Int × Int)) : Int × Int :=
  erLoop stats.reverse 0 0

/-- The value the spec sentence describes: the timestamp of the most recent
bucket (scanning from the newest end) whose count is nonzero, or 0 if no
bucket has a nonzero count.  Written from the claim, for comparison with the
source-derived `extractErrorRate`. -/
def claimedLatestNonZero (stats : List (Int × Int)) : Int :=
  match stats.reverse.find? (fun b => b.2 ≠ 0) with
  | some b => b.1
  | none => 0

/-- What the loop actually computes: the timestamp of the most recent bucket
whose count is positive AND whose timestamp is nonzero (a zero timestamp is
indistinguishable from the unset sentinel), or 0 if no such bucket exists. -/
def codeLatest (stats : List (Int × Int)) : Int :=
  match stats.reverse.find? (fun b => 0 < b.2 ∧ b.1 ≠ 0) with
  | some b => b.1
  | none => 0

/-! ## Header application in requestSentry (src/sentry.go lines 45-51)

```go
for key, value := range config.Headers {
    if strings.Title(key) == "Host" {
        request.Host = value
        continue
    }
    request.Header.Set(key, value)
}
```

`strings.Title` (Go standard library) upper-cases every letter that begins a
word and leaves all other characters unchanged; a word begins after any
character that is not a letter, digit or underscore.  `http.Header.Set`
stores the value under the canonical MIME form of the key (upper-case letter
at the start and after each hyphen, lower-case elsewhere).  Both are embedded
for ASCII strings, which cover HTTP header names. -/

def goIsSeparator (c : Char) : Bool :=
  !(c.isDigit || c.isLower || c.isUpper || c = '_')

def goTitleAux : Char → List Char → List Char
  | _, [] => []
  | prev, c :: rest =>
      (if goIsSeparator prev then c.toUpper else c) :: goTitleAux c rest

/-- ASCII model of Go `strings.Title` (initial `prev` is a space). -/
def goTitle (s : String) : String :=
  String.mk (goTitleAux ' ' s.data)

def canonicalMIMEAux : Bool → List Char → List Char
  | _, [] => []
  | up, c :: rest =>
      (if up then c.toUpper else c.toLower) :: canonicalMIMEAux (c = '-') rest

/-- ASCII model of `textproto.CanonicalMIMEHeaderKey` on valid header tokens. -/
def canonicalMIMEHeaderKey (s : String) : String :=
  String.mk (canonicalMIMEAux true s.data)

def headerGet (h : List (String × String)) (key : String) : Option String :=
  (h.find? (fun kv => kv.1 = key)).map Prod.snd

/-- `http.Header.Set`: replace any entry under the canonical key, else append. -/
def headerSet (h : List (String × String)) (key value : String) : List (String × String) :=
  let ck := canonicalMIMEHeaderKey key
  if (h.find? (fun kv => kv.1 = ck)).isSome then
    h.map (fun kv => if kv.1 = ck then (ck, value) else kv)
  else h ++ [(ck, value)]

/-- The header loop of `requestSentry`: returns the request's virtual host
(`request.Host`; `none` when never assigned) and the wire header map. -/
def applyHeaders (headers : List (String × String)) :
    Option String × List (String × String) :=
  headers.foldl
    (fun acc kv =>
      if goTitle kv.1 = "Host" then (some kv.2, acc.2)
      else (acc.1, headerSet acc.2 kv.1 kv.2))
    (none, [])

/-! ## One issues page: getIssuesListByFreq (src/unnamed/part_003 lines 59-106)

```go
issueIdToProject := make(map[string]string)
var allIds []string
for _, issue := range issues {
    issueIdToProject[issue.Id] = issue.Project.Slug
    allIds = append(allIds, issue.Id)
}
countPerIssueIds, err := getIssueCountForIds(allIds, statsPeriod, config, client)
...
more := true
for id := range countPerIssueIds {
    if projectId, ok := issueIdToProject[id]; ok {
        if countPerIssueIds[id] >= thresh {
            countPerProject[projectId]++
        } else {
            more = false
        }
    }
}
if more {
    nextExtra, err = getSentryNextCursor(resp)
    ...
}
return countPerProject, nextExtra, nil
```

The decoded page is `issues` (id and project slug per record); the decoded
batch statistics are `stats` (issue id, lifetime count), an association list
standing for the Go map `countPerIssueIds` (increments commute, so iteration
order does not matter).  `cursorRes` is the string `getSentryNextCursor`
would produce for this response ("" when it fails to find one). -/

structure Issue where
  id : String
  slug : String
deriving DecidableEq

/-- Lookup in the Go map built by `issueIdToProject[issue.Id] = ...`:
the last write wins. -/
def issueIdToProject (issues : List Issue) (id : String) : Option String :=
  (issues.reverse.find? (fun it => it.id = id)).map Issue.slug

/-- `countPerProject[slug]++` on an association-list map. -/
def bump : List (String × Nat) → String → List (String × Nat)
  | [], slug => [(slug, 1)]
  | (s, n) :: rest, slug =>
      if s = slug then (s, n + 1) :: rest else (s, n) :: bump rest slug

/-- Map read with default 0 (a Go map read of a missing key). -/
def lookupCount : List (String × Nat) → String → Nat
  | [], _ => 0
  | (s, n) :: rest, slug => if s = slug then n else lookupCount rest slug

def sumCounts (acc : List (String × Nat)) : Nat :=
  (acc.map Prod.snd).sum

/-- The threshold loop over the decoded batch statistics. -/
def pageLoop (thresh : Int) (issues : List Issue) :
    List (String × Int) → List (String × Nat) → Bool → List (String × Nat) × Bool
  | [], acc, more => (acc, more)
  | (id, c) :: rest, acc, more =>
      match issueIdToProject issues id with
      | some slug =>
          if thresh ≤ c then pageLoop thresh issues rest (bump acc slug) more
          else pageLoop thresh issues rest acc false
      | none => pageLoop thresh issues rest acc more

/-- The per-page walker step: per-project qualifying counts and the next
cursor query (the cursor is extracted only when no inspected id fell below
the threshold; "" ends the caller's loop). -/
def getIssuesListByFreq (thresh : Int) (issues : List Issue)
    (stats : List (String × Int)) (cursorRes : String) :
    List (String × Nat) × String :=
  let r := pageLoop thresh issues stats [] true
  (r.1, if r.2 then cursorRes else "")

/-! ## strconv.Atoi

`strconv.Atoi` accepts an optional sign followed by one or more decimal
digits and nothing else; on a syntax error it returns the pair (0, err).
`goAtoi` returns `none` exactly on a syntax error (the int64 range is not
modelled; the inputs of interest are far below it). -/

def digitsVal (cs : List Char) : Option Nat :=
  if cs = [] then none
  else if cs.all Char.isDigit then
    some (cs.foldl (fun acc c => acc * 10 + (c.toNat - 48)) 0)
  else none

def goAtoi (s : String) : Option Int :=
  match s.data with
  | [] => none
  | '+' :: rest => (digitsVal rest).map Int.ofNat
  | '-' :: rest => (digitsVal rest).map (fun n => -(n : Int))
  | cs => (digitsVal cs).map Int.ofNat

/-! ## Threshold and period resolution (src/unnamed/part_003 lines 195-213)

```go
above := 10000
if a := config.Issues.Above; a > 0 {
    above = a
}
if a := values.Get("above"); a != "" {
    above, _ = strconv.Atoi(a)
}

period := "14d"
if p := module.HTTP.Issues.Period; p != "" {
    period = p
}
if p := values.Get("period"); p != "" {
    period = p
}
if period != "14d" && period != "24h" {
    log.Error("Invalid period (must be 14d or 24h)")
    return false
}
```
-/

def resolveAbove (cfgAbove : Int) (aboveParam : String) : Int :=
  let above : Int := if 0 < cfgAbove then cfgAbove else 10000
  if aboveParam ≠ "" then (goAtoi aboveParam).getD 0 else above

def resolvePeriod (cfgPeriod : String) (periodParam : String) : String :=
  let period := if cfgPeriod ≠ "" then cfgPeriod else "14d"
  if periodParam ≠ "" then periodParam else period

/-! ## Pagination walk: requestIssueCountAboveThreshold
(src/unnamed/part_003 lines 29-57)

```go
issuesList := make(map[string]int)
extra := ""
total := 0
for {
    newIssuesList, extra, err = getIssuesListByFreq(thresh, statsPeriod, extra, config, client)
    if err != nil {
        log.Error(err)
        break
    }
    for project, _ := range newIssuesList {
        issuesList[project] += newIssuesList[project]
        total += newIssuesList[project]
    }
    if extra == "" {
        break
    }
}
for project, _ := range issuesList { fmt.Fprintf(w, "sentry_project_high_freq_issues...") }
fmt.Fprintf(w, "sentry_high_freq_issues...")
```

Each loop iteration is one `getIssuesListByFreq` call; its outcome (a
transport/decode error, or a per-project count map together with the next
cursor query) is drawn in order from `pages`, which abstracts the sequence of
upstream responses.  The walk below also counts how many pages were fetched. -/

inductive PageResp where
  /-- err != nil from the list fetch, the issue decode or the stats fetch. -/
  | fail
  /-- A fully processed page: its per-project qualifying counts and the next
  cursor query ("" when the page is the last). -/
  | ok (counts : List (String × Nat)) (extra : String)

/-- `issuesList[project] += v`. -/
def bumpBy : List (String × Nat) → String → Nat → List (String × Nat)
  | [], slug, v => [(slug, v)]
  | (s, n) :: rest, slug, v =>
      if s = slug then (s, n + v) :: rest else (s, n) :: bumpBy rest slug v

/-- Merge one page map into the accumulator. -/
def addPage (acc : List (String × Nat)) (page : List (String × Nat)) :
    List (String × Nat) :=
  page.foldl (fun a e => bumpBy a e.1 e.2) acc

def pageSum (page : List (String × Nat)) : Nat :=
  (page.map Prod.snd).sum

/-- Sum of the values a page holds under one key (what merging the page adds
to the accumulator at that key). -/
def keySum (page : List (String × Nat)) (slug : String) : Nat :=
  ((page.filter (fun e => e.1 = slug)).map Prod.snd).sum

/-- The cursor loop: accumulator map, scrape-wide total, pages fetched. -/
def walkPages : List PageResp → List (String × Nat) → Nat →
    List (String × Nat) × Nat × Nat
  | [], acc, total => (acc, total, 0)
  | .fail :: _, acc, total => (acc, total, 1)
  | .ok page extra :: rest, acc, total =>
      let acc2 := addPage acc page
      let total2 := total + pageSum page
      if extra = "" then (acc2, total2, 1)
      else
        let r := walkPages rest acc2 total2
        (r.1, r.2.1, r.2.2 + 1)

/-- `requestIssueCountAboveThreshold`: runs the walk and always emits the
accumulated per-project counts and the organization-wide total. -/
def requestIssueCountAboveThreshold (pages : List PageResp) :
    List (String × Nat) × Nat × Nat :=
  walkPages pages [] 0

/-! ## probeHTTPIssues (src/unnamed/part_003 lines 191-222) -/

structure IssuesProbeOut where
  /-- the Bool the prober returns to `probeHandler`. -/
  success : Bool
  /-- the resolved threshold (computed before the period check). -/
  above : Int
  /-- whether `requestIssueCountAboveThreshold` ran (false ⇒ no network call). -/
  walked : Bool
  /-- pages fetched by the walk (0 when it never ran). -/
  pagesFetched : Nat
  /-- the emitted per-project high-frequency counts. -/
  perProject : List (String × Nat)
  /-- the emitted organization-wide total. -/
  total : Nat

def probeHTTPIssues (cfgAbove : Int) (cfgPeriod : String)
    (aboveParam periodParam : String) (pages : List PageResp) : IssuesProbeOut :=
  let above := resolveAbove cfgAbove aboveParam
  let period := resolvePeriod cfgPeriod periodParam
  if period ≠ "14d" ∧ period ≠ "24h" then
    ⟨false, above, false, 0, [], 0⟩
  else
    let r := requestIssueCountAboveThreshold pages
    ⟨true, above, true, r.2.2, r.1, r.2.1⟩

/-! ## Lag probe (src/prober_lag.go lines 122-189)

```go
func probeProjectLag(target string, ..., failures *int, lastTsChan chan<- int, wg *sync.WaitGroup) {
    latestTimestamp, err = requestEventCount(target, "received", ...)
    if err != nil { *failures++ }
    _, err = requestEventCount(target, "rejected", ...)
    if err != nil { *failures++ }
    if config.RateLimit {
        err = requestRateLimit(target, ...)
        if err != nil { *failures++ }
    }
    lastTsChan <- latestTimestamp
}

// in probeHTTPLag:
latestTimestamp := -1
for range targets {
    ts := <-ch
    if ts == 0 { continue }
    if latestTimestamp == -1 || ts > latestTimestamp { latestTimestamp = ts }
}
wg.Wait()
if latestTimestamp > -1 {
    fmt.Fprintf(w, "sentry_events_latest_timestamp %d\n", latestTimestamp)
    fmt.Fprintf(w, "sentry_events_lag_seconds %d\n", generateLag(latestTimestamp))
}
fmt.Fprintf(w, "sentry_fetch_failures %d\n", failures)
```

Each worker is characterised by the outcome of its sub-calls: whether the
"received" stats call failed (request or decode; on failure
`requestEventCount` returns timestamp 0), the timestamp it extracted when it
succeeded, and whether the "rejected" and key-list calls failed.  Increments
of the shared counter commute, so the concurrent workers are folded in launch
order. -/

structure LagWorker where
  receivedErr : Bool
  receivedTs : Int
  rejectedErr : Bool
  rateLimitErr : Bool
deriving DecidableEq

def workerFailures (rateLimit : Bool) (w : LagWorker) : Nat :=
  (if w.receivedErr then 1 else 0) + (if w.rejectedErr then 1 else 0)
    + (if rateLimit then (if w.rateLimitErr then 1 else 0) else 0)

/-- The timestamp the worker sends on `lastTsChan`. -/
def workerTs (w : LagWorker) : Int :=
  if w.receivedErr then 0 else w.receivedTs

/-- One step of the receive loop in `probeHTTPLag`. -/
def aggStep (latest ts : Int) : Int :=
  if ts = 0 then latest
  else if latest = -1 ∨ latest < ts then ts
  else latest

def probeLatest (workers : List LagWorker) : Int :=
  (workers.map workerTs).foldl aggStep (-1)

structure LagProbeOut where
  failures : Nat
  /-- `some v` iff `sentry_events_latest_timestamp v` (and the lag line)
  were written. -/
  orgLatest : Option Int
  /-- the `sentry_fetch_failures` line is written unconditionally. -/
  failuresEmitted : Bool
deriving DecidableEq

def probeHTTPLag (rateLimit : Bool) (workers : List LagWorker) : LagProbeOut :=
  let failures := (workers.map (workerFailures rateLimit)).sum
  let latest := probeLatest workers
  ⟨failures, if -1 < latest then some latest else none, true⟩

/-- A worker that fails every sub-call it makes for this configuration. -/
def allFail (rateLimit : Bool) (w : LagWorker) : Bool :=
  w.receivedErr && w.rejectedErr && (!rateLimit || w.rateLimitErr)

/-- A worker whose every sub-call succeeds. -/
def allOk (rateLimit : Bool) (w : LagWorker) : Bool :=
  !w.receivedErr && !w.rejectedErr && (!rateLimit || !w.rateLimitErr)

/-- A two-issue page whose first issue qualifies at threshold 10 and whose
second does not. -/
def demoIssues : List Issue := [⟨"1", "alpha"⟩, ⟨"2", "beta"⟩]

def demoStats : List (String × Int) := [("1", 20), ("2", 5)]

/-- The response stream of a walk that fails at page `good.length + 1`: the
pages in `good` decode fully and carry a nonempty next cursor; the following
fetch errors; `junk` is whatever the upstream would have answered later. -/
def pagesThenFailure (good : List (List (String × Nat) × String))
    (junk : List PageResp) : List PageResp :=
  good.map (fun g => PageResp.ok g.1 g.2) ++ (PageResp.fail :: junk)

/-- One all-failing worker and one fully succeeding worker reporting
timestamp 100, with rate-limit reporting disabled. -/
def demoWorkers : List LagWorker := [⟨true, 0, true, true⟩, ⟨false, 100, false, false⟩]

/-! ## Lemmas and claim theorems -/

lemma runScrapes_steady (fetched : List String) (h : fetched ≠ []) :
    ∀ k, k ≤ 51 → runScrapes fetched (1 + k) = (⟨fetched, k⟩, 1) := by
  intro k
  induction k with
  | zero =>
      intro _
      simp [runScrapes, getOrUpdateProjectsList]
  | succ m ih =>
      intro hm
      have hm' : m ≤ 51 := Nat.le_of_succ_le hm
      have hmlt : ¬ m > 50 := by omega
      have hcache : ¬ fetched.length = 0 := by
        simpa [List.length_eq_zero] using h
      have : 1 + (m + 1) = (1 + m) + 1 := by omega
      rw [this, runScrapes, ih hm']
      simp [getOrUpdateProjectsList, hcache, hmlt]

lemma erLoop_fst : ∀ (l : List (Int × Int)) (count latest : Int),
    (erLoop l count latest).1 = count + (l.map Prod.snd).sum
  | [], count, latest => by simp [erLoop]
  | (ts, c) :: rest, count, latest => by
      rw [erLoop, erLoop_fst rest]
      simp
      ring

lemma erLoop_snd_stuck : ∀ (l : List (Int × Int)) (count latest : Int),
    latest ≠ 0 → (erLoop l count latest).2 = latest
  | [], count, latest, _ => rfl
  | (ts, c) :: rest, count, latest, h => by
      rw [erLoop]
      have : (if latest = 0 ∧ 0 < c then ts else latest) = latest := by
        simp [h]
      rw [this, erLoop_snd_stuck rest _ _ h]

lemma erLoop_snd_find : ∀ (l : List (Int × Int)) (count : Int),
    (erLoop l count 0).2 =
      (match l.find? (fun b => 0 < b.2 ∧ b.1 ≠ 0) with
       | some b => b.1
       | none => 0)
  | [], count => rfl
  | (ts, c) :: rest, count => by
      rw [erLoop]
      by_cases hc : 0 < c
      · by_cases hts : ts = 0
        · rw [List.find?_cons_of_neg _ (by simp [hts])]
          have h1 : (if (0 : Int) = 0 ∧ 0 < c then ts else 0) = 0 := by
            simp [hts]
          rw [h1, erLoop_snd_find rest]
        · rw [List.find?_cons_of_pos _ (by simp [hts, hc])]
          have h1 : (if (0 : Int) = 0 ∧ 0 < c then ts else 0) = ts := by
            simp [hc]
          rw [h1, erLoop_snd_stuck rest _ _ hts]
      · rw [List.find?_cons_of_neg _ (by simp [hc])]
        have h1 : (if (0 : Int) = 0 ∧ 0 < c then ts else 0) = 0 := by
          simp [hc]
        rw [h1, erLoop_snd_find rest]

lemma lookupCount_bump_same (acc : List (String × Nat)) (slug : String) :
    lookupCount (bump acc slug) slug = lookupCount acc slug + 1 := by
  induction acc with
  | nil => simp [bump, lookupCount]
  | cons kv rest ih =>
      obtain ⟨s, n⟩ := kv
      by_cases hs : s = slug
      · simp [bump, lookupCount, hs]
      · simp [bump, lookupCount, hs, ih]

lemma lookupCount_bump_other (acc : List (String × Nat)) (s slug : String)
    (h : s ≠ slug) : lookupCount (bump acc s) slug = lookupCount acc slug := by
  have h' : slug ≠ s := Ne.symm h
  induction acc with
  | nil => simp [bump, lookupCount, h]
  | cons kv rest ih =>
      obtain ⟨s₀, n⟩ := kv
      by_cases hs : s₀ = s
      · subst hs
        simp [bump, lookupCount, h]
      · by_cases hs₂ : s₀ = slug <;> simp [bump, lookupCount, hs, hs₂, h', ih]

lemma sumCounts_bump (acc : List (String × Nat)) (slug : String) :
    sumCounts (bump acc slug) = sumCounts acc + 1 := by
  induction acc with
  | nil => simp [bump, sumCounts]
  | cons kv rest ih =>
      obtain ⟨s, n⟩ := kv
      by_cases hs : s = slug
      · simp [bump, sumCounts, hs]
        omega
      · simp [bump, sumCounts, hs] at *
        omega

lemma pageLoop_lookup (thresh : Int) (issues : List Issue) :
    ∀ (stats : List (String × Int)) (acc : List (String × Nat)) (m : Bool)
      (slug : String),
      lookupCount (pageLoop thresh issues stats acc m).1 slug
        = lookupCount acc slug
          + (stats.filter (fun e =>
              issueIdToProject issues e.1 = some slug ∧ thresh ≤ e.2)).length
  | [], acc, m, slug => by simp [pageLoop]
  | (id, c) :: rest, acc, m, slug => by
      rw [pageLoop]
      cases hp : issueIdToProject issues id with
      | none =>
          rw [pageLoop_lookup thresh issues rest]
          have : ¬ (issueIdToProject issues id = some slug ∧ thresh ≤ c) := by
            simp [hp]
          simp only [List.filter_cons]
          simp [this]
      | some s =>
          by_cases hc : thresh ≤ c
          · simp only [hc, if_true]
            rw [pageLoop_lookup thresh issues rest]
            by_cases hs : s = slug
            · subst hs
              have : (issueIdToProject issues id = some s ∧ thresh ≤ c) := ⟨hp, hc⟩
              simp only [List.filter_cons]
              simp [this, lookupCount_bump_same]
              omega
            · have : ¬ (issueIdToProject issues id = some slug ∧ thresh ≤ c) := by
                simp [hp]
                intro hcon
                exact absurd hcon hs
              simp only [List.filter_cons]
              simp [this, lookupCount_bump_other acc s slug hs]
          · simp only [hc, if_false]
            rw [pageLoop_lookup thresh issues rest]
            have : ¬ (issueIdToProject issues id = some slug ∧ thresh ≤ c) := by
              intro hcon
              exact hc hcon.2
            simp only [List.filter_cons]
            simp [this]

lemma pageLoop_sum (thresh : Int) (issues : List Issue) :
    ∀ (stats : List (String × Int)) (acc : List (String × Nat)) (m : Bool),
      sumCounts (pageLoop thresh issues stats acc m).1
        = sumCounts acc
          + (stats.filter (fun e =>
              (issueIdToProject issues e.1).isSome ∧ thresh ≤ e.2)).length
  | [], acc, m => by simp [pageLoop]
  | (id, c) :: rest, acc, m => by
      rw [pageLoop]
      cases hp : issueIdToProject issues id with
      | none =>
          rw [pageLoop_sum thresh issues rest]
          simp only [List.filter_cons]
          simp [hp]
      | some s =>
          by_cases hc : thresh ≤ c
          · simp only [hc, if_true]
            rw [pageLoop_sum thresh issues rest]
            simp only [List.filter_cons]
            simp [hp, hc, sumCounts_bump]
            omega
          · simp only [hc, if_false]
            rw [pageLoop_sum thresh issues rest]
            simp only [List.filter_cons]
            simp [hp, hc]

lemma pageLoop_more_false (thresh : Int) (issues : List Issue) :
    ∀ (stats : List (String × Int)) (acc : List (String × Nat)),
      (pageLoop thresh issues stats acc false).2 = false
  | [], acc => rfl
  | (id, c) :: rest, acc => by
      rw [pageLoop]
      cases issueIdToProject issues id with
      | none => exact pageLoop_more_false thresh issues rest acc
      | some s =>
          by_cases hc : thresh ≤ c
          · simp only [hc, if_true]
            exact pageLoop_more_false thresh issues rest _
          · simp only [hc, if_false]
            exact pageLoop_more_false thresh issues rest acc

lemma pageLoop_more_true (thresh : Int) (issues : List Issue) :
    ∀ (stats : List (String × Int)) (acc : List (String × Nat)),
      (pageLoop thresh issues stats acc true).2 = true
        ↔ ∀ e ∈ stats, (issueIdToProject issues e.1).isSome → thresh ≤ e.2
  | [], acc => by simp [pageLoop]
  | (id, c) :: rest, acc => by
      rw [pageLoop]
      cases hp : issueIdToProject issues id with
      | none =>
          rw [pageLoop_more_true thresh issues rest]
          constructor
          · intro h e he
            rcases List.mem_cons.mp he with he₁ | he₂
            · subst he₁
              simp [hp]
            · exact h e he₂
          · intro h e he
            exact h e (List.mem_cons_of_mem _ he)
      | some s =>
          by_cases hc : thresh ≤ c
          · simp only [hc, if_true]
            rw [pageLoop_more_true thresh issues rest]
            constructor
            · intro h e he
              rcases List.mem_cons.mp he with he₁ | he₂
              · subst he₁
                intro _
                exact hc
              · exact h e he₂
            · intro h e he
              exact h e (List.mem_cons_of_mem _ he)
          · simp only [hc, if_false]
            rw [pageLoop_more_false thresh issues rest]
            constructor
            · intro h
              exact absurd h (by simp)
            · intro h
              exfalso
              exact hc (h (id, c) (List.mem_cons_self _ _) (by simp [hp]))

lemma lookupCount_bumpBy (acc : List (String × Nat)) (s slug : String) (v : Nat) :
    lookupCount (bumpBy acc s v) slug
      = lookupCount acc slug + (if s = slug then v else 0) := by
  induction acc with
  | nil =>
      by_cases hs : s = slug <;> simp [bumpBy, lookupCount, hs]
  | cons kv rest ih =>
      obtain ⟨s₀, n⟩ := kv
      by_cases h₀ : s₀ = s
      · subst h₀
        by_cases hs : s₀ = slug <;> simp [bumpBy, lookupCount, hs]
      · by_cases hs₂ : s₀ = slug
        · have hss : ¬ slug = s := fun hh => h₀ (hs₂.trans hh)
          have hs' : ¬ s = slug := fun hh => hss hh.symm
          simp [bumpBy, lookupCount, h₀, hs₂, hss, hs', ih]
        · simp [bumpBy, lookupCount, h₀, hs₂, ih]

lemma lookupCount_addPage (page : List (String × Nat)) :
    ∀ (acc : List (String × Nat)) (slug : String),
      lookupCount (addPage acc page) slug = lookupCount acc slug + keySum page slug := by
  induction page with
  | nil => simp [addPage, keySum]
  | cons e rest ih =>
      intro acc slug
      obtain ⟨s, v⟩ := e
      have step : addPage acc ((s, v) :: rest) = addPage (bumpBy acc s v) rest := rfl
      rw [step, ih, lookupCount_bumpBy]
      by_cases hs : s = slug
      · subst hs
        simp only [keySum, List.filter_cons]
        simp
        omega
      · simp only [keySum, List.filter_cons]
        simp [hs]

lemma walkPages_ok_cons (page : List (String × Nat)) (extra : String)
    (rest : List PageResp) (acc : List (String × Nat)) (total : Nat)
    (h : extra ≠ "") :
    walkPages (PageResp.ok page extra :: rest) acc total
      = ((walkPages rest (addPage acc page) (total + pageSum page)).1,
         (walkPages rest (addPage acc page) (total + pageSum page)).2.1,
         (walkPages rest (addPage acc page) (total + pageSum page)).2.2 + 1) := by
  simp only [walkPages]
  rw [if_neg h]

lemma walkPages_partial (junk : List PageResp) :
    ∀ (good : List (List (String × Nat) × String)) (acc : List (String × Nat)) (total : Nat),
      (∀ g ∈ good, g.2 ≠ "") →
      walkPages ((good.map (fun g => PageResp.ok g.1 g.2)) ++ (PageResp.fail :: junk)) acc total
        = (good.foldl (fun a g => addPage a g.1) acc,
           total + (good.map (fun g => pageSum g.1)).sum,
           good.length + 1)
  | [], acc, total, _ => by simp [walkPages]
  | g :: rest, acc, total, hgood => by
      obtain ⟨page, extra⟩ := g
      have hne : extra ≠ "" := hgood (page, extra) (List.mem_cons_self _ _)
      have hrest : ∀ x ∈ rest, x.2 ≠ "" :=
        fun x hx => hgood x (List.mem_cons_of_mem _ hx)
      rw [List.map_cons, List.cons_append, walkPages_ok_cons _ _ _ _ _ hne,
          walkPages_partial junk rest _ _ hrest]
      simp only [List.foldl_cons, List.map_cons, List.sum_cons, List.length_cons,
        Prod.mk.injEq]
      exact ⟨trivial, by omega, trivial⟩

lemma aggFold_pos : ∀ (l : List Int) (acc : Int), (∀ x ∈ l, 0 ≤ x) → 0 < acc →
    0 < l.foldl aggStep acc
    ∧ (l.foldl aggStep acc = acc ∨ l.foldl aggStep acc ∈ l)
    ∧ acc ≤ l.foldl aggStep acc
    ∧ ∀ x ∈ l, x ≤ l.foldl aggStep acc
  | [], acc, _, hacc => ⟨hacc, Or.inl rfl, le_refl _, by simp⟩
  | x :: rest, acc, hl, hacc => by
      have hx : 0 ≤ x := hl x (List.mem_cons_self _ _)
      have hrest : ∀ y ∈ rest, 0 ≤ y := fun y hy => hl y (List.mem_cons_of_mem _ hy)
      rw [List.foldl_cons]
      by_cases hx0 : x = 0
      · have hstep : aggStep acc x = acc := by simp [aggStep, hx0]
        rw [hstep]
        obtain ⟨h1, h2, h3, h4⟩ := aggFold_pos rest acc hrest hacc
        refine ⟨h1, ?_, h3, ?_⟩
        · rcases h2 with h | h
          · exact Or.inl h
          · exact Or.inr (List.mem_cons_of_mem _ h)
        · intro y hy
          rcases List.mem_cons.mp hy with hy₁ | hy₂
          · subst hy₁
            omega
          · exact h4 y hy₂
      · by_cases hlt : acc < x
        · have hstep : aggStep acc x = x := by
            simp [aggStep, hx0, hlt]
          rw [hstep]
          have hxpos : 0 < x := by omega
          obtain ⟨h1, h2, h3, h4⟩ := aggFold_pos rest x hrest hxpos
          refine ⟨h1, ?_, by omega, ?_⟩
          · rcases h2 with h | h
            · exact Or.inr (by simp [h])
            · exact Or.inr (List.mem_cons_of_mem _ h)
          · intro y hy
            rcases List.mem_cons.mp hy with hy₁ | hy₂
            · subst hy₁
              omega
            · exact h4 y hy₂
        · have hstep : aggStep acc x = acc := by
            have hne : ¬ (acc = -1 ∨ acc < x) := by omega
            simp [aggStep, hx0, hne]
          rw [hstep]
          obtain ⟨h1, h2, h3, h4⟩ := aggFold_pos rest acc hrest hacc
          refine ⟨h1, ?_, h3, ?_⟩
          · rcases h2 with h | h
            · exact Or.inl h
            · exact Or.inr (List.mem_cons_of_mem _ h)
          · intro y hy
            rcases List.mem_cons.mp hy with hy₁ | hy₂
            · subst hy₁
              omega
            · exact h4 y hy₂

lemma aggFold_start : ∀ (l : List Int), (∀ x ∈ l, 0 ≤ x) →
    (l.foldl aggStep (-1) = -1 ∧ ∀ x ∈ l, x = 0)
    ∨ (0 < l.foldl aggStep (-1) ∧ l.foldl aggStep (-1) ∈ l
        ∧ ∀ x ∈ l, x ≤ l.foldl aggStep (-1))
  | [], _ => Or.inl ⟨rfl, by simp⟩
  | x :: rest, hl => by
      have hx : 0 ≤ x := hl x (List.mem_cons_self _ _)
      have hrest : ∀ y ∈ rest, 0 ≤ y := fun y hy => hl y (List.mem_cons_of_mem _ hy)
      rw [List.foldl_cons]
      by_cases hx0 : x = 0
      · have hstep : aggStep (-1) x = -1 := by simp [aggStep, hx0]
        rw [hstep]
        rcases aggFold_start rest hrest with ⟨h1, h2⟩ | ⟨h1, h2, h3⟩
        · refine Or.inl ⟨h1, ?_⟩
          intro y hy
          rcases List.mem_cons.mp hy with hy₁ | hy₂
          · subst hy₁
            exact hx0
          · exact h2 y hy₂
        · refine Or.inr ⟨h1, List.mem_cons_of_mem _ h2, ?_⟩
          intro y hy
          rcases List.mem_cons.mp hy with hy₁ | hy₂
          · subst hy₁
            omega
          · exact h3 y hy₂
      · have hstep : aggStep (-1) x = x := by simp [aggStep, hx0]
        rw [hstep]
        have hxpos : 0 < x := by omega
        obtain ⟨h1, h2, h3, h4⟩ := aggFold_pos rest x hrest hxpos
        refine Or.inr ⟨h1, ?_, ?_⟩
        · rcases h2 with h | h
          · exact (by simp [h])
          · exact List.mem_cons_of_mem _ h
        · intro y hy
          rcases List.mem_cons.mp hy with hy₁ | hy₂
          · subst hy₁
            omega
          · exact h4 y hy₂

lemma workerFailures_allFail (rateLimit : Bool) (w : LagWorker)
    (h : allFail rateLimit w = true) :
    workerFailures rateLimit w = if rateLimit then 3 else 2 := by
  simp only [allFail, Bool.and_eq_true, Bool.or_eq_true, Bool.not_eq_true'] at h
  obtain ⟨⟨h1, h2⟩, h3⟩ := h
  cases rateLimit with
  | false => simp [workerFailures, h1, h2]
  | true =>
      rcases h3 with h3 | h3
      · cases h3
      · simp [workerFailures, h1, h2, h3]

lemma workerFailures_allOk (rateLimit : Bool) (w : LagWorker)
    (h : allOk rateLimit w = true) :
    workerFailures rateLimit w = 0 := by
  simp only [allOk, Bool.and_eq_true, Bool.or_eq_true, Bool.not_eq_true'] at h
  obtain ⟨⟨h1, h2⟩, h3⟩ := h
  cases rateLimit with
  | false => simp [workerFailures, h1, h2]
  | true =>
      rcases h3 with h3 | h3
      · cases h3
      · simp [workerFailures, h1, h2, h3]

lemma allOk_not_allFail (rateLimit : Bool) (w : LagWorker)
    (h : allOk rateLimit w = true) : allFail rateLimit w = false := by
  simp only [allOk, Bool.and_eq_true, Bool.not_eq_true'] at h
  simp [allFail, h.1.1]

lemma failures_sum (rateLimit : Bool) :
    ∀ (workers : List LagWorker),
      (∀ w ∈ workers, allFail rateLimit w = true ∨ allOk rateLimit w = true) →
      (workers.map (workerFailures rateLimit)).sum
        = (workers.filter (allFail rateLimit)).length * (if rateLimit then 3 else 2)
  | [], _ => by simp
  | w :: rest, h => by
      have hw := h w (List.mem_cons_self _ _)
      have hrest : ∀ x ∈ rest, allFail rateLimit x = true ∨ allOk rateLimit x = true :=
        fun x hx => h x (List.mem_cons_of_mem _ hx)
      rw [List.map_cons, List.sum_cons, failures_sum rateLimit rest hrest]
      rcases hw with hw | hw
      · rw [workerFailures_allFail rateLimit w hw]
        simp only [List.filter_cons, hw]
        cases rateLimit <;> simp [Nat.succ_mul] <;> omega
      · rw [workerFailures_allOk rateLimit w hw]
        simp only [List.filter_cons, allOk_not_allFail rateLimit w hw]
        simp

/-! ## Claim theorems -/

/-- Claim C1: the claim says that on every transport error (no response
object available) requestSentry evaluates totally and returns a
transport-classified error.  The code is wrong: the shared error return
formats resp.StatusCode into the message, and with a nil response that
dereference is a runtime panic (modelled as none), both with and without
configured valid status codes.  The status-validation branch is indeed
skipped, and when a response object does accompany the error (refused
redirect) the function does return the error result. -/
theorem c1_requestSentry_nil_response_panics :
    requestSentry [] DoResult.errNoResp = none
    ∧ requestSentry [200, 302] DoResult.errNoResp = none
    ∧ requestSentry [] (DoResult.errWithResp ⟨302⟩) = some (Except.error 302) :=
  ⟨rfl, rfl, rfl⟩

/-- Claim C2: the claim says a present, valid timeout query parameter sets the
client timeout to the parsed duration, and an absent one leaves the module
timeout.  The code inverts the parse-error check (err != nil guards the
assignment), so a VALID parameter is ignored (timeout stays 10), an INVALID
parameter sets the timeout to the zero duration, and only the absent case
behaves as claimed. -/
theorem c2_clientWithTimeout_override_inverted :
    clientWithTimeout parseDurDemo "30s" 10 = 10
    ∧ clientWithTimeout parseDurDemo "zzz" 10 = 0
    ∧ clientWithTimeout parseDurDemo "" 10 = 10 := by
  refine ⟨?_, ?_, ?_⟩ <;> decide

/-- Claim C3, counterexample: starting from the empty cache, after exactly 51
consecutive all-projects scrapes the list-projects call has been issued
exactly once, not twice as claimed. -/
theorem c3_fifty_one_scrapes_one_call :
    (runScrapes ["proj"] 51).2 = 1 ∧ (1 : Nat) ≠ 2 := by
  refine ⟨?_, ?_⟩ <;> decide

/-- Claim C3, amended: starting from an empty cache, the list-projects call
is issued on the first scrape; scrapes 2..52 serve the cached list (the
staleness counter entering scrape 1+k is k), so after 51 scrapes exactly one
call has been issued; the counter reaches 51 entering the 53rd scrape, which
therefore refreshes, for a total of exactly two calls after 53 scrapes. -/
theorem c3_projectCache_second_refresh_on_53rd (fetched : List String)
    (h : fetched ≠ []) :
    (runScrapes fetched 51).2 = 1
    ∧ (runScrapes fetched 53).2 = 2
    ∧ (runScrapes fetched 53).1 = ⟨fetched, 0⟩
    ∧ ∀ k, k ≤ 51 → runScrapes fetched (1 + k) = (⟨fetched, k⟩, 1) := by
  have h51 : runScrapes fetched 51 = (⟨fetched, 50⟩, 1) := by
    have e : (51 : Nat) = 1 + 50 := by omega
    rw [e, runScrapes_steady fetched h 50 (by omega)]
  have h52 : runScrapes fetched 52 = (⟨fetched, 51⟩, 1) := by
    have e : (52 : Nat) = 1 + 51 := by omega
    rw [e, runScrapes_steady fetched h 51 (by omega)]
  have h53 : runScrapes fetched 53 = (⟨fetched, 0⟩, 2) := by
    have e : (53 : Nat) = 52 + 1 := by omega
    rw [e, runScrapes, h52]
    simp [getOrUpdateProjectsList]
  refine ⟨by rw [h51], by rw [h53], by rw [h53], ?_⟩
  intro k hk
  exact runScrapes_steady fetched h k hk

/-- Claim C3, witness for the amended theorem at a one-project organization. -/
theorem c3_projectCache_witness :
    (["p"] ≠ ([] : List String))
    ∧ (runScrapes ["p"] 53).2 = 2
    ∧ (runScrapes ["p"] 51).2 = 1 :=
  ⟨by decide,
   (c3_projectCache_second_refresh_on_53rd ["p"] (by decide)).2.1,
   (c3_projectCache_second_refresh_on_53rd ["p"] (by decide)).1⟩

/-- Claim C4, counterexample: for the decoded series [(5,1),(0,1)] (newest
bucket has timestamp 0 and nonzero count) the claim says the extracted latest
timestamp is the newest nonzero-count bucket's timestamp, 0; the code keeps
scanning past it and returns 5. -/
theorem c4_latest_zero_timestamp_mismatch :
    extractErrorRate [((5 : Int), 1), (0, 1)] = (2, 5)
    ∧ claimedLatestNonZero [((5 : Int), 1), (0, 1)] = 0
    ∧ ((5 : Int) ≠ 0) := by
  refine ⟨?_, ?_, ?_⟩ <;> decide

/-- Claim C4, amended: for every decoded series, the extracted total is the
sum of ALL bucket counts (no tail bucket is truncated, the "ignore the last
timestamp" comment notwithstanding), and the extracted latest timestamp is
the timestamp of the most recent bucket (scanning from the newest end) whose
count is positive and whose timestamp is nonzero, or 0 if there is no such
bucket.  (For series whose timestamps are all nonzero and counts nonnegative
this is exactly the claim's reading.) -/
theorem c4_extractErrorRate_total_and_latest (stats : List (Int × Int)) :
    (extractErrorRate stats).1 = (stats.map Prod.snd).sum
    ∧ (extractErrorRate stats).2 = codeLatest stats := by
  constructor
  · rw [extractErrorRate, erLoop_fst]
    simp [List.map_reverse, List.sum_reverse]
  · rw [extractErrorRate, codeLatest]
    exact erLoop_snd_find stats.reverse 0

/-- Claim C5: on one fetched page, the accumulator gains one per id whose
count reaches the threshold (boundary page included), the page's contribution
to the scrape-wide total is the number of qualifying ids, and the next cursor
is extracted exactly when no id on the page fell below the threshold.
`hpage` states that the batched statistics cover exactly ids of this page. -/
theorem c5_getIssuesListByFreq_counts_and_stop (thresh : Int)
    (issues : List Issue) (stats : List (String × Int)) (cursorRes : String)
    (hpage : ∀ e ∈ stats, (issueIdToProject issues e.1).isSome) :
    (∀ slug, lookupCount (getIssuesListByFreq thresh issues stats cursorRes).1 slug
        = (stats.filter (fun e =>
            issueIdToProject issues e.1 = some slug ∧ thresh ≤ e.2)).length)
    ∧ sumCounts (getIssuesListByFreq thresh issues stats cursorRes).1
        = (stats.filter (fun e => thresh ≤ e.2)).length
    ∧ ((pageLoop thresh issues stats [] true).2 = false ↔ ∃ e ∈ stats, e.2 < thresh)
    ∧ (getIssuesListByFreq thresh issues stats cursorRes).2
        = (if (pageLoop thresh issues stats [] true).2 then cursorRes else "") := by
  refine ⟨?_, ?_, ?_, rfl⟩
  · intro slug
    have h := pageLoop_lookup thresh issues stats [] true slug
    simpa [getIssuesListByFreq, lookupCount] using h
  · have h := pageLoop_sum thresh issues stats [] true
    have hcong : ∀ e ∈ stats,
        (decide ((issueIdToProject issues e.1).isSome ∧ thresh ≤ e.2))
          = decide (thresh ≤ e.2) := by
      intro e he
      simp [hpage e he]
    rw [List.filter_congr hcong] at h
    simpa [getIssuesListByFreq, sumCounts] using h
  · rw [Bool.eq_false_iff, Ne, pageLoop_more_true thresh issues stats []]
    constructor
    · intro h
      by_contra hno
      push_neg at hno
      exact h (fun e he _ => hno e he)
    · rintro ⟨e, he, hlt⟩ hall
      exact absurd (hall e he (hpage e he)) (by omega)

/-- Claim C5, witness: threshold 10 over a page where issue "1" (project
alpha, count 20) qualifies and issue "2" (project beta, count 5) does not:
alpha is counted once, the page total is 1, and no cursor is extracted. -/
theorem c5_witness :
    (∀ e ∈ demoStats, (issueIdToProject demoIssues e.1).isSome)
    ∧ lookupCount (getIssuesListByFreq 10 demoIssues demoStats "cursor=abc").1 "alpha" = 1
    ∧ sumCounts (getIssuesListByFreq 10 demoIssues demoStats "cursor=abc").1 = 1
    ∧ (getIssuesListByFreq 10 demoIssues demoStats "cursor=abc").2 = "" := by
  have h := c5_getIssuesListByFreq_counts_and_stop 10 demoIssues demoStats
    "cursor=abc" (by decide)
  refine ⟨by decide, ?_, ?_, ?_⟩
  · exact (h.1 "alpha").trans (by decide)
  · exact h.2.1.trans (by decide)
  · have hmore : (pageLoop 10 demoIssues demoStats [] true).2 = false :=
      h.2.2.1.mpr (by decide)
    rw [h.2.2.2, hmore]
    simp

/-- Claim C6, counterexample: for the configured header name "HOST" (and
likewise "hOst") the claim says the virtual host is set and no wire header;
the code compares strings.Title(key) with "Host", and strings.Title leaves
"HOST" as "HOST", so the value goes into the wire header map (under canonical
key "Host") and request.Host is never assigned. -/
theorem c6_upper_host_set_as_wire_header :
    (applyHeaders [("HOST", "example.com")]).1 = none
    ∧ headerGet (applyHeaders [("HOST", "example.com")]).2 "Host" = some "example.com"
    ∧ (applyHeaders [("hOst", "example.com")]).1 = none := by
  refine ⟨?_, ?_, ?_⟩ <;> decide

/-- Claim C6, amended: a configured header name sets the transport-level
virtual host (and no wire header) exactly when its strings.Title form equals
"Host" — that is "Host" and "host", but not "HOST" or "hOst", since
strings.Title upper-cases only the letter that begins a word and leaves the
rest unchanged; every other name is set as a wire header under its canonical
MIME key. -/
theorem c6_host_header_title_case (k v : String) :
    (goTitle k = "Host" → applyHeaders [(k, v)] = (some v, []))
    ∧ (goTitle k ≠ "Host" →
        (applyHeaders [(k, v)]).1 = none
        ∧ (applyHeaders [(k, v)]).2 = [(canonicalMIMEHeaderKey k, v)])
    ∧ goTitle "host" = "Host" ∧ goTitle "Host" = "Host"
    ∧ goTitle "HOST" = "HOST" ∧ goTitle "hOst" = "HOst" := by
  refine ⟨?_, ?_, by decide, by decide, by decide, by decide⟩
  · intro hk
    simp [applyHeaders, hk]
  · intro hk
    simp [applyHeaders, hk, headerSet, headerGet]

/-- Claim C6, witness: "host" title-cases to "Host" and is routed to the
virtual host; "HOST" does not and is not. -/
theorem c6_witness :
    goTitle "host" = "Host"
    ∧ applyHeaders [("host", "example.com")] = (some "example.com", [])
    ∧ goTitle "HOST" ≠ "Host"
    ∧ (applyHeaders [("HOST", "x")]).1 = none :=
  ⟨by decide, (c6_host_header_title_case "host" "example.com").1 (by decide),
   by decide, ((c6_host_header_title_case "HOST" "x").2.1 (by decide)).1⟩

lemma lookupCount_foldl_addPage :
    ∀ (good : List (List (String × Nat) × String)) (acc : List (String × Nat))
      (slug : String),
      lookupCount (good.foldl (fun a g => addPage a g.1) acc) slug
        = lookupCount acc slug + (good.map (fun g => keySum g.1 slug)).sum
  | [], acc, slug => by simp
  | g :: rest, acc, slug => by
      rw [List.foldl_cons, lookupCount_foldl_addPage rest, lookupCount_addPage]
      simp only [List.map_cons, List.sum_cons]
      omega

/-- Claim C7: when the fetch of page `good.length + 1` fails, the walk stops
there; the emitted per-project map and organization-wide total are exactly
the aggregation of the pages fully processed before the failure, and the
probe still reports success to its caller. -/
theorem c7_walk_failure_keeps_partial (good : List (List (String × Nat) × String))
    (junk : List PageResp) (hgood : ∀ g ∈ good, g.2 ≠ "") :
    (∀ slug, lookupCount (requestIssueCountAboveThreshold (pagesThenFailure good junk)).1 slug
        = (good.map (fun g => keySum g.1 slug)).sum)
    ∧ (requestIssueCountAboveThreshold (pagesThenFailure good junk)).2.1
        = (good.map (fun g => pageSum g.1)).sum
    ∧ (requestIssueCountAboveThreshold (pagesThenFailure good junk)).2.2
        = good.length + 1
    ∧ ∀ (cfgAbove : Int) (aboveParam : String),
        (probeHTTPIssues cfgAbove "14d" aboveParam "" (pagesThenFailure good junk)).success
          = true := by
  have hw := walkPages_partial junk good [] 0 hgood
  refine ⟨?_, ?_, ?_, ?_⟩
  · intro slug
    rw [requestIssueCountAboveThreshold, pagesThenFailure, hw,
      lookupCount_foldl_addPage]
    simp [lookupCount]
  · rw [requestIssueCountAboveThreshold, pagesThenFailure, hw]
    simp
  · rw [requestIssueCountAboveThreshold, pagesThenFailure, hw]
  · intro cfgAbove aboveParam
    simp [probeHTTPIssues, resolvePeriod]

/-- Claim C7, witness: one fully processed page (project alpha, 2 qualifying
issues, cursor present), then a failing fetch: alpha keeps its 2, the total
is 2, two pages were fetched, and the probe succeeds. -/
theorem c7_witness :
    (∀ g ∈ [([("alpha", 2)], "cursor=a")], g.2 ≠ ("" : String))
    ∧ lookupCount (requestIssueCountAboveThreshold
        (pagesThenFailure [([("alpha", 2)], "cursor=a")] [])).1 "alpha" = 2
    ∧ (requestIssueCountAboveThreshold
        (pagesThenFailure [([("alpha", 2)], "cursor=a")] [])).2.1 = 2
    ∧ (requestIssueCountAboveThreshold
        (pagesThenFailure [([("alpha", 2)], "cursor=a")] [])).2.2 = 2
    ∧ (probeHTTPIssues 0 "14d" "" ""
        (pagesThenFailure [([("alpha", 2)], "cursor=a")] [])).success = true := by
  have h := c7_walk_failure_keeps_partial [([("alpha", 2)], "cursor=a")] []
    (by decide)
  exact ⟨by decide, (h.1 "alpha").trans (by decide), h.2.1.trans (by decide),
    h.2.2.1.trans (by decide), h.2.2.2 0 ""⟩

lemma probeHTTPIssues_above_eq (cfgAbove : Int) (cfgPeriod aboveParam periodParam : String)
    (pages : List PageResp) :
    (probeHTTPIssues cfgAbove cfgPeriod aboveParam periodParam pages).above
      = resolveAbove cfgAbove aboveParam := by
  simp only [probeHTTPIssues]
  split <;> rfl

/-- Claim C8: when the resolved period (query parameter over module
configuration over "14d") is neither "14d" nor "24h" the probe fails without
walking (no network call); the period resolves by that precedence; and for a
valid period the threshold resolves by precedence: a parseable query
parameter wins, else a positive module default, else 10000. -/
theorem c8_probeHTTPIssues_period_and_threshold (cfgAbove : Int)
    (cfgPeriod aboveParam periodParam : String) (pages : List PageResp) :
    ((resolvePeriod cfgPeriod periodParam ≠ "14d"
        ∧ resolvePeriod cfgPeriod periodParam ≠ "24h") →
      (probeHTTPIssues cfgAbove cfgPeriod aboveParam periodParam pages).success = false
      ∧ (probeHTTPIssues cfgAbove cfgPeriod aboveParam periodParam pages).walked = false
      ∧ (probeHTTPIssues cfgAbove cfgPeriod aboveParam periodParam pages).pagesFetched = 0)
    ∧ (periodParam ≠ "" → resolvePeriod cfgPeriod periodParam = periodParam)
    ∧ (periodParam = "" → cfgPeriod ≠ "" → resolvePeriod cfgPeriod periodParam = cfgPeriod)
    ∧ (periodParam = "" → cfgPeriod = "" → resolvePeriod cfgPeriod periodParam = "14d")
    ∧ (∀ v : Int, aboveParam ≠ "" → goAtoi aboveParam = some v →
        (probeHTTPIssues cfgAbove cfgPeriod aboveParam periodParam pages).above = v)
    ∧ (aboveParam = "" → 0 < cfgAbove →
        (probeHTTPIssues cfgAbove cfgPeriod aboveParam periodParam pages).above = cfgAbove)
    ∧ (aboveParam = "" → cfgAbove ≤ 0 →
        (probeHTTPIssues cfgAbove cfgPeriod aboveParam periodParam pages).above = 10000) := by
  refine ⟨?_, ?_, ?_, ?_, ?_, ?_, ?_⟩
  · intro h
    refine ⟨?_, ?_, ?_⟩ <;> simp [probeHTTPIssues, h]
  · intro h
    simp [resolvePeriod, h]
  · intro h1 h2
    simp [resolvePeriod, h1, h2]
  · intro h1 h2
    simp [resolvePeriod, h1, h2]
  · intro v h1 h2
    rw [probeHTTPIssues_above_eq]
    simp [resolveAbove, h1, h2]
  · intro h1 h2
    rw [probeHTTPIssues_above_eq]
    simp [resolveAbove, h1, h2]
  · intro h1 h2
    rw [probeHTTPIssues_above_eq]
    have : ¬ (0 : Int) < cfgAbove := by omega
    simp [resolveAbove, h1, this]

/-- Claim C8, witness: resolved period "7d" is invalid, so the probe fails
without fetching any page; with a valid period, a module default of 500 is
used when no parameter is given, and a parameter "42" overrides it. -/
theorem c8_witness :
    (resolvePeriod "" "7d" ≠ "14d" ∧ resolvePeriod "" "7d" ≠ "24h")
    ∧ (probeHTTPIssues 0 "" "" "7d" []).success = false
    ∧ (probeHTTPIssues 0 "" "" "7d" []).walked = false
    ∧ (probeHTTPIssues 0 "" "" "7d" []).pagesFetched = 0
    ∧ (probeHTTPIssues 500 "" "" "" []).above = 500
    ∧ (probeHTTPIssues 500 "" "42" "" []).above = 42 := by
  have h1 := c8_probeHTTPIssues_period_and_threshold 0 "" "" "7d" []
  have h2 := c8_probeHTTPIssues_period_and_threshold 500 "" "" "" []
  have h3 := c8_probeHTTPIssues_period_and_threshold 500 "" "42" "" []
  refine ⟨by decide, ?_, ?_, ?_, ?_, ?_⟩
  · exact (h1.1 (by decide)).1
  · exact (h1.1 (by decide)).2.1
  · exact (h1.1 (by decide)).2.2
  · exact h2.2.2.2.2.2.1 rfl (by decide)
  · exact h3.2.2.2.2.1 42 (by decide) (by decide)

/-- Claim C9: over workers that either fail every sub-call or succeed at
every sub-call, the emitted sentry_fetch_failures equals K*2 (rate limit
disabled) or K*3 (enabled) where K is the number of all-failing workers; the
organization-wide latest-timestamp metric is emitted iff some worker reported
a nonzero timestamp, its value is then the maximum reported timestamp (all
failing workers report 0); and the failure metric is emitted even when 0.
Timestamps extracted by succeeding workers are Unix timestamps, hence the
nonnegativity hypothesis. -/
theorem c9_probeHTTPLag_failures_and_latest (rateLimit : Bool)
    (workers : List LagWorker)
    (hsplit : ∀ w ∈ workers, allFail rateLimit w = true ∨ allOk rateLimit w = true)
    (hts : ∀ w ∈ workers, 0 ≤ w.receivedTs) :
    (probeHTTPLag rateLimit workers).failures
        = (workers.filter (allFail rateLimit)).length * (if rateLimit then 3 else 2)
    ∧ ((probeHTTPLag rateLimit workers).orgLatest.isSome = true
        ↔ ∃ w ∈ workers, workerTs w ≠ 0)
    ∧ (∀ v, (probeHTTPLag rateLimit workers).orgLatest = some v →
        v ∈ workers.map workerTs ∧ (∀ t ∈ workers.map workerTs, t ≤ v) ∧ 0 < v)
    ∧ (probeHTTPLag rateLimit workers).failuresEmitted = true := by
  have hmapts : ∀ x ∈ workers.map workerTs, 0 ≤ x := by
    intro x hx
    rcases List.mem_map.mp hx with ⟨w, hw, rfl⟩
    rw [workerTs]
    by_cases he : w.receivedErr = true
    · rw [if_pos he]
    · rw [if_neg he]
      exact hts w hw
  have hfold := aggFold_start (workers.map workerTs) hmapts
  simp only [probeHTTPLag, probeLatest]
  rcases hfold with ⟨h1, h2⟩ | ⟨h1, h2, h3⟩
  · rw [h1]
    refine ⟨failures_sum rateLimit workers hsplit, ?_, ?_, trivial⟩
    · simp only [show ¬ (-1 : Int) < -1 by omega, if_false]
      simp only [Option.isSome_none]
      constructor
      · intro h
        exact absurd h (by simp)
      · rintro ⟨w, hw, hne⟩
        exact absurd (h2 _ (List.mem_map_of_mem _ hw)) hne
    · intro v hv
      rw [if_neg (by omega : ¬ (-1 : Int) < -1)] at hv
      exact absurd hv (by simp)
  · have hlt : (-1 : Int) < (workers.map workerTs).foldl aggStep (-1) := by omega
    rw [if_pos hlt]
    refine ⟨failures_sum rateLimit workers hsplit, ?_, ?_, trivial⟩
    · simp only [Option.isSome_some, true_iff]
      rcases List.mem_map.mp h2 with ⟨w, hw, heq⟩
      exact ⟨w, hw, by rw [heq]; omega⟩
    · intro v hv
      have hv2 := Option.some.inj hv
      rw [← hv2]
      exact ⟨h2, h3, h1⟩

/-- Claim C9, witness: two projects, one failing every sub-call, rate-limit
reporting disabled: 1*2 failures, the organization-wide timestamp is emitted
(the succeeding worker reported 100), and the failure metric is emitted. -/
theorem c9_witness :
    (∀ w ∈ demoWorkers, allFail false w = true ∨ allOk false w = true)
    ∧ (∀ w ∈ demoWorkers, (0 : Int) ≤ w.receivedTs)
    ∧ (probeHTTPLag false demoWorkers).failures = 2
    ∧ (probeHTTPLag false demoWorkers).orgLatest.isSome = true
    ∧ (probeHTTPLag false demoWorkers).failuresEmitted = true := by
  have h := c9_probeHTTPLag_failures_and_latest false demoWorkers
    (by decide) (by decide)
  refine ⟨by decide, by decide, h.1.trans (by decide), ?_, h.2.2.2⟩
  exact h.2.1.mpr (by decide)

/-- Claim C10: a non-empty `above` query parameter that does not parse as a
decimal integer makes the effective threshold 0 (strconv.Atoi returns 0 with
its error discarded), not the module or hardcoded default; and at threshold 0
every issue with a nonnegative count qualifies, so every id on the page is
counted and the early-stop flag never trips. -/
theorem c10_above_unparseable_threshold_zero (cfgAbove : Int)
    (aboveParam : String) (hne : aboveParam ≠ "") (hbad : goAtoi aboveParam = none)
    (issues : List Issue) (stats : List (String × Int))
    (hnonneg : ∀ e ∈ stats, 0 ≤ e.2) :
    resolveAbove cfgAbove aboveParam = 0
    ∧ (pageLoop 0 issues stats [] true).2 = true
    ∧ ∀ slug, lookupCount (pageLoop 0 issues stats [] true).1 slug
        = (stats.filter (fun e => issueIdToProject issues e.1 = some slug)).length := by
  refine ⟨?_, ?_, ?_⟩
  · simp [resolveAbove, hne, hbad]
  · exact (pageLoop_more_true 0 issues stats []).mpr
      (fun e he _ => hnonneg e he)
  · intro slug
    have h := pageLoop_lookup 0 issues stats [] true slug
    have hcong : ∀ e ∈ stats,
        (decide (issueIdToProject issues e.1 = some slug ∧ (0 : Int) ≤ e.2))
          = decide (issueIdToProject issues e.1 = some slug) := by
      intro e he
      simp [hnonneg e he]
    rw [List.filter_congr hcong] at h
    simpa [lookupCount] using h

/-- Claim C10, witness: module default 500, parameter "abc": the threshold
becomes 0, and on the demo page both projects are counted with no stop. -/
theorem c10_witness :
    ("abc" ≠ "") ∧ goAtoi "abc" = none
    ∧ resolveAbove 500 "abc" = 0
    ∧ (pageLoop 0 demoIssues demoStats [] true).2 = true
    ∧ lookupCount (pageLoop 0 demoIssues demoStats [] true).1 "beta" = 1 := by
  have h := c10_above_unparseable_threshold_zero 500 "abc" (by decide) (by decide)
    demoIssues demoStats (by decide)
  exact ⟨by decide, by decide, h.1, h.2.1, (h.2.2 "beta").trans (by decide)⟩
